import Mathlib

/-!
Verification of the MTF (multi-timeframe) trading signal engine.

The engine is shallowly embedded: a pandas DataFrame of OHLCV bars becomes a
`Frame` of rational-number column lists, pandas `ewm(span, adjust=False).mean()`
becomes the seeded exponential-smoothing recurrence over `Frac`, and the in-place
column mutations (`inplace=True`) become explicit state passing: every function
that mutates its frame in the source returns the updated frame alongside its
result.  Timestamps are minutes since an arbitrary epoch (`ℕ`).
-/

namespace MTF

/-- Exact rational arithmetic for the price data (the source works on floats;
the embedding uses exact fractions).  Every operation renormalizes through
`Nat.gcd`, so structed values are canonical and structural equality coincides
with value equality on everything the engine computes. -/
structure Frac where
  num : ℤ
  den : ℕ
deriving DecidableEq, Repr

/-- Renormalize a fraction by the gcd of numerator and denominator. -/
def Frac.norm (n : ℤ) (d : ℕ) : Frac :=
  let g := Nat.gcd n.natAbs d
  ⟨n / (g : ℤ), d / g⟩

instance (n : ℕ) : OfNat Frac n := ⟨⟨(n : ℤ), 1⟩⟩

instance : Zero Frac := ⟨⟨0, 1⟩⟩

instance : NatCast Frac := ⟨fun n => ⟨(n : ℤ), 1⟩⟩

/-- Integer-valued fraction. -/
def Frac.ofNat (n : ℕ) : Frac := ⟨(n : ℤ), 1⟩

instance : Add Frac :=
  ⟨fun a b => Frac.norm (a.num * (b.den : ℤ) + b.num * (a.den : ℤ)) (a.den * b.den)⟩

instance : Sub Frac :=
  ⟨fun a b => Frac.norm (a.num * (b.den : ℤ) - b.num * (a.den : ℤ)) (a.den * b.den)⟩

instance : Mul Frac := ⟨fun a b => Frac.norm (a.num * b.num) (a.den * b.den)⟩

/-- Division; only ever applied to nonzero divisors (`α = 2/(span+1)`). -/
instance : Div Frac :=
  ⟨fun a b =>
    if 0 ≤ b.num then Frac.norm (a.num * (b.den : ℤ)) (a.den * b.num.natAbs)
    else Frac.norm (-(a.num * (b.den : ℤ))) (a.den * b.num.natAbs)⟩

instance : LT Frac := ⟨fun a b => a.num * (b.den : ℤ) < b.num * (a.den : ℤ)⟩

instance : LE Frac := ⟨fun a b => a.num * (b.den : ℤ) ≤ b.num * (a.den : ℤ)⟩

instance (a b : Frac) : Decidable (a < b) :=
  inferInstanceAs (Decidable (a.num * (b.den : ℤ) < b.num * (a.den : ℤ)))

instance (a b : Frac) : Decidable (a ≤ b) :=
  inferInstanceAs (Decidable (a.num * (b.den : ℤ) ≤ b.num * (a.den : ℤ)))

instance : Max Frac := ⟨fun a b => if a ≤ b then b else a⟩

instance : Min Frac := ⟨fun a b => if a ≤ b then a else b⟩

/-- One raw OHLCV bar: timestamp (minutes since epoch) plus the five columns. -/
structure Bar where
  ts : ℕ
  Open : Frac
  High : Frac
  Low : Frac
  Close : Frac
  Volume : Frac
deriving DecidableEq, Repr

/-- A DataFrame: an index column plus the OHLCV columns, and the five derived
indicator columns, each `none` while the column is absent from the frame.  In
pandas all columns of one frame share a length; the embedding does not bake
that in, reads out of range fall back to a default. -/
structure Frame where
  idx : List ℕ
  Open : List Frac
  High : List Frac
  Low : List Frac
  Close : List Frac
  Volume : List Frac
  EMA50 : Option (List Frac) := none
  EMA200 : Option (List Frac) := none
  DIF : Option (List Frac) := none
  DEA : Option (List Frac) := none
  MACD_HIST : Option (List Frac) := none
deriving DecidableEq, Repr

/-- `len(df)` : number of rows of the frame. -/
def frameLen (df : Frame) : ℕ := df.Close.length

/-- Positional read of a column (`series.iloc[i]`), defaulting out of range. -/
def nth (xs : List Frac) (i : ℕ) : Frac := xs.getD i 0

/-- `series.iloc[-1]`, the last entry of a column. -/
def lastVal (xs : List Frac) : Frac := nth xs (xs.length - 1)

/-- `series.ewm(span=span, adjust=False).mean()` after its first sample:
`y = (1-α)·prev + α·x` with `α = 2/(span+1)`. -/
def emaFrom (a : Frac) (prev : Frac) : List Frac → List Frac
  | [] => []
  | x :: xs =>
    let y := (1 - a) * prev + a * x
    y :: emaFrom a y xs

/-- `ema(series, span)`: exponential moving average, recurrence form, seeded so
the first output equals the first input. -/
def ema (s : List Frac) (span : ℕ) : List Frac :=
  match s with
  | [] => []
  | x :: xs => x :: emaFrom (2 / ((span : Frac) + 1)) x xs

/-- `macd(close, fast, slow, signal)`: returns (DIF, DEA, MACD_HIST). -/
def macd (close : List Frac) (fast slow signal : ℕ) : List Frac × List Frac × List Frac :=
  let dif := List.zipWith (fun a b => a - b) (ema close fast) (ema close slow)
  let dea := ema dif signal
  let hist := List.zipWith (fun a b => a - b) dif dea
  (dif, dea, hist)

/-- `add_indicators(df, ema_spans, macd_params)`: adds EMA50/EMA200 columns if
absent, and recomputes the (DIF, DEA, MACD_HIST) trio unless all three are
already present.  Column names are fixed regardless of the spans used. -/
def add_indicators (df : Frame) (ema_spans : ℕ × ℕ) (macd_params : ℕ × ℕ × ℕ) :
    Frame :=
  let e50 := match df.EMA50 with
    | some c => some c
    | none => some (ema df.Close ema_spans.1)
  let e200 := match df.EMA200 with
    | some c => some c
    | none => some (ema df.Close ema_spans.2)
  let trio :=
    if df.DIF.isSome && df.DEA.isSome && df.MACD_HIST.isSome then
      (df.DIF, df.DEA, df.MACD_HIST)
    else
      let m := macd df.Close macd_params.1 macd_params.2.1 macd_params.2.2
      (some m.1, some m.2.1, some m.2.2)
  { df with EMA50 := e50, EMA200 := e200,
            DIF := trio.1, DEA := trio.2.1, MACD_HIST := trio.2.2 }

/-- Maximum of a nonempty window (`series.max()`); 0 on the empty list, which
no reachable call produces. -/
def listMax : List Frac → Frac
  | [] => 0
  | x :: xs => xs.foldl max x

/-- Minimum of a window (`series.min()`). -/
def listMin : List Frac → Frac
  | [] => 0
  | x :: xs => xs.foldl min x

/-- The slice `series.iloc[i-l : i+r+1]` used as the pivot window. -/
def windowOf (xs : List Frac) (i l r : ℕ) : List Frac :=
  (xs.drop (i - l)).take (l + r + 1)

/-- `find_swings(high, low, left, right)`: indices `i ∈ [left, n-right)` whose
high equals the window maximum (swing highs) and whose low equals the window
minimum (swing lows); returns two empty lists when the range is empty. -/
def find_swings (high low : List Frac) (left right : ℕ) : List ℕ × List ℕ :=
  let n := high.length
  if n - right ≤ left then ([], [])
  else
    let idxs := List.range' left (n - right - left)
    (idxs.filter (fun i => decide (nth high i = listMax (windowOf high i left right))),
     idxs.filter (fun i => decide (nth low i = listMin (windowOf low i left right))))

/-- `max(pivots)` over a list of indices, `none` on the empty list. -/
def maxPivot : List ℕ → Option ℕ
  | [] => none
  | p :: ps =>
    match maxPivot ps with
    | none => some p
    | some q => some (max p q)

/-- `bars_since_last_pivot(idx, swing_high, swing_low)`: `idx` minus the
largest pooled pivot index `≤ idx`, or `none` when no pivot qualifies. -/
def bars_since_last_pivot (idx : ℕ) (swing_high swing_low : List ℕ) :
    Option ℕ :=
  let pivots := (swing_high ++ swing_low).filter (fun p => decide (p ≤ idx))
  (maxPivot pivots).map (fun last => idx - last)

/-- `fibo_time_pass(bars_since_pivot, fibo_set, tolerance)`: `none` fails; a
value passes iff it is within `tolerance` of some member of the set. -/
def fibo_time_pass (bars_since_pivot : Option ℕ) (fibo_set : List ℕ)
    (tolerance : ℕ) : Bool :=
  match bars_since_pivot with
  | none => false
  | some v => fibo_set.any (fun f => decide (((v : ℤ) - (f : ℤ)).natAbs ≤ tolerance))

/-- Result record of `hidden_divergence` (the source returns this dict; when
the series is too short the two index entries are `None`). -/
structure HiddenResult where
  hidden_bull : Bool
  hidden_bear : Bool
  last_swing_low_idx : Option ℕ
  last_swing_high_idx : Option ℕ
deriving DecidableEq, Repr

/-- The two most recent entries of a pivot list (`xs[-2], xs[-1]`), `none`
when the list holds fewer than two. -/
def lastTwo (xs : List ℕ) : Option (ℕ × ℕ) :=
  match xs.reverse with
  | b :: a :: _ => some (a, b)
  | _ => none

/-- `hidden_divergence(df, use_hist, left, right)`: short series short-circuit,
otherwise compare the last two swing lows (resp. highs) of price against the
oscillator (DIF, or MACD_HIST when `use_hist`). -/
def hidden_divergence (df : Frame) (use_hist : Bool) (left right : ℕ) :
    HiddenResult :=
  if frameLen df < left + right + 1 then
    ⟨false, false, none, none⟩
  else
    let osc := (if use_hist then df.MACD_HIST else df.DIF).getD []
    let sw := find_swings df.High df.Low left right
    let swing_h := sw.1
    let swing_l := sw.2
    let hidden_bull :=
      match lastTwo swing_l with
      | some (i1, i2) =>
        decide (nth df.Low i2 > nth df.Low i1) && decide (nth osc i2 < nth osc i1)
      | none => false
    let hidden_bear :=
      match lastTwo swing_h with
      | some (j1, j2) =>
        decide (nth df.High j2 < nth df.High j1) && decide (nth osc j2 > nth osc j1)
      | none => false
    ⟨hidden_bull, hidden_bear, swing_l.getLast?, swing_h.getLast?⟩

/-- The detail dict returned by `check_3_confirm`. -/
structure MMCDetails where
  ms_buy : Bool
  ms_sell : Bool
  macd_buy : Bool
  macd_sell : Bool
  fibo_ok : Bool
  bars_since_pivot : Option ℕ
deriving DecidableEq, Repr

/-- The `ema_source` column-name argument of `check_3_confirm`. -/
inductive EmaSource
  | EMA50
  | EMA200
deriving DecidableEq, Repr

/-- Look up the column an `EmaSource` names. -/
def Frame.col (df : Frame) (s : EmaSource) : Option (List Frac) :=
  match s with
  | .EMA50 => df.EMA50
  | .EMA200 => df.EMA200

/-- `check_3_confirm(df, fibo_set, fibo_tol, ema_source)`: the MMC scorer.
Returns `((buy_score, sell_score, details), df')` where `df'` is the frame
after the lazy `add_indicators(df, inplace=True)` call (default parameters,
exactly as in the source) that runs when a needed column is absent.  Fewer
than 2 bars returns scores 0/0 with an empty detail dict (`none`). -/
def check_3_confirm (df : Frame) (fibo_set : List ℕ) (fibo_tol : ℕ)
    (ema_source : EmaSource) : (ℕ × ℕ × Option MMCDetails) × Frame :=
  if frameLen df < 2 then ((0, 0, none), df)
  else
    let df2 :=
      if (df.col ema_source).isSome && df.DIF.isSome && df.DEA.isSome then df
      else add_indicators df (50, 200) (12, 26, 9)
    let t := frameLen df2 - 1
    let t1 := frameLen df2 - 2
    let es := (df2.col ema_source).getD []
    let dif := df2.DIF.getD []
    let dea := df2.DEA.getD []
    let ms_buy := decide (nth df2.Close t > nth es t) &&
                  decide (nth df2.Close t1 ≤ nth es t1)
    let ms_sell := decide (nth df2.Close t < nth es t) &&
                   decide (nth df2.Close t1 ≥ nth es t1)
    let macd_buy := decide (nth dif t > nth dea t) &&
                    decide (nth dif t1 ≤ nth dea t1)
    let macd_sell := decide (nth dif t < nth dea t) &&
                     decide (nth dif t1 ≥ nth dea t1)
    let sw := find_swings df2.High df2.Low 2 2
    let bslp := bars_since_last_pivot t sw.1 sw.2
    let fibo_ok := fibo_time_pass bslp fibo_set fibo_tol
    let confirms_buy := (if ms_buy then 1 else 0) + (if macd_buy then 1 else 0)
      + (if fibo_ok then 1 else 0)
    let confirms_sell := (if ms_sell then 1 else 0) + (if macd_sell then 1 else 0)
      + (if fibo_ok then 1 else 0)
    ((confirms_buy, confirms_sell,
      some ⟨ms_buy, ms_sell, macd_buy, macd_sell, fibo_ok, bslp⟩), df2)

/-- The detail dict returned by `htf_filter_30m`. -/
structure HTFDetails where
  trend_up_last_n_above_ema200 : Bool
  ema_align_up : Bool
  momentum_up : Bool
  trend_down_last_n_below_ema200 : Bool
  ema_align_down : Bool
  momentum_down : Bool
deriving DecidableEq, Repr

/-- `htf_filter_30m(df30, ema_spans, macd_params, min_bars_above_below)`:
returns `((htf_up, htf_down, details), df30')` with `df30'` the frame after
the unconditional in-place `add_indicators` call.  `df.iloc[-n:]` is the
whole frame when `n = 0` (Python `-0 == 0`); on an empty frame with
`min_bars = 0` the source would raise on `iloc[-1]`, which the embedding
totalises through the defaulting reads (both flags come out false there). -/
def htf_filter_30m (df30 : Frame) (ema_spans : ℕ × ℕ)
    (macd_params : ℕ × ℕ × ℕ) (min_bars_above_below : ℕ) :
    (Bool × Bool × Option HTFDetails) × Frame :=
  let df := add_indicators df30 ema_spans macd_params
  if frameLen df < min_bars_above_below then ((false, false, none), df)
  else
    let n := min_bars_above_below
    let start := if n = 0 then 0 else frameLen df - n
    let closeN := df.Close.drop start
    let ema200N := (df.EMA200.getD []).drop start
    let cond_trend_up := (List.zipWith (fun c e => decide (c > e)) closeN ema200N).all id
    let cond_ema_align_up := decide (lastVal (df.EMA50.getD []) > lastVal (df.EMA200.getD []))
    let cond_momentum_up := decide (lastVal (df.DIF.getD []) > lastVal (df.DEA.getD [])) ||
                            decide (lastVal (df.MACD_HIST.getD []) > 0)
    let htf_up := cond_trend_up && cond_ema_align_up && cond_momentum_up
    let cond_trend_down := (List.zipWith (fun c e => decide (c < e)) closeN ema200N).all id
    let cond_ema_align_down := decide (lastVal (df.EMA50.getD []) < lastVal (df.EMA200.getD []))
    let cond_momentum_down := decide (lastVal (df.DIF.getD []) < lastVal (df.DEA.getD [])) ||
                              decide (lastVal (df.MACD_HIST.getD []) < 0)
    let htf_down := cond_trend_down && cond_ema_align_down && cond_momentum_down
    ((htf_up, htf_down,
      some ⟨cond_trend_up, cond_ema_align_up, cond_momentum_up,
            cond_trend_down, cond_ema_align_down, cond_momentum_down⟩), df)

/-- Start of the fixed-grid bucket containing minute `t` for a rule of
`rule` minutes (pandas `resample('15T')` style flooring). -/
def bucketOf (rule : ℕ) (t : ℕ) : ℕ := t / rule * rule

/-- `resample_ohlc(df, rule)`: group bars into fixed-width buckets with
open=first, high=max, low=min, close=last, volume=sum; buckets with no bars
are never emitted (the `dropna(subset=['Close'])`), and output is ordered
ascending by bucket start. -/
def resample_ohlc (bars : List Bar) (rule : ℕ) : Frame :=
  let keys := List.insertionSort (fun a b => a ≤ b)
    ((bars.map (fun b => bucketOf rule b.ts)).dedup)
  let group := fun k => bars.filter (fun b => decide (bucketOf rule b.ts = k))
  { idx := keys,
    Open := keys.map (fun k => (((group k).head?).map Bar.Open).getD 0),
    High := keys.map (fun k => listMax ((group k).map Bar.High)),
    Low := keys.map (fun k => listMin ((group k).map Bar.Low)),
    Close := keys.map (fun k => (((group k).getLast?).map Bar.Close).getD 0),
    Volume := keys.map (fun k => ((group k).map Bar.Volume).sum) }

/-- The action/reason combiner of `mtf_signal` (its lines after the detail
computations): the decision state machine over the HTF flags, the two MMC
scores and the hidden-divergence flags. -/
def decideAction (htf_up htf_down : Bool) (c_buy c_sell : ℕ)
    (use_hidden hidden_bull hidden_bear : Bool) : String × List String :=
  if htf_up && decide (c_buy ≥ 2) then
    (if c_buy = 3 then "BUY: ALL-IN (3/3, MTF aligned)"
     else "BUY: Confirmed (MTF aligned)",
     if use_hidden && hidden_bull then ["Hidden Bullish boost"] else [])
  else if htf_down && decide (c_sell ≥ 2) then
    (if c_sell = 3 then "SELL: ALL-IN (3/3, MTF aligned)"
     else "SELL: Confirmed (MTF aligned)",
     if use_hidden && hidden_bear then ["Hidden Bearish boost"] else [])
  else
    ("HOLD/WAIT",
     (if !htf_up && !htf_down then ["30m filter not aligned"] else []) ++
     (if decide (c_buy < 2) && decide (c_sell < 2) then ["15m MMC < 2/3"] else []))

/-- The result dict of `mtf_signal`.  `none` models a key that is absent from
the returned dict (the early `Not enough bars` return carries only
`price_15m`, `action` and `reasons`); `some none` in a detail field models a
key present with an empty dict value. -/
structure SignalResult where
  time : Option ℕ
  price_15m : Option Frac
  BUY_confirms_15m : Option ℕ
  SELL_confirms_15m : Option ℕ
  action : String
  reasons : List String
  htf_details : Option (Option HTFDetails)
  mmc_details_15m : Option (Option MMCDetails)
  hidden_div_15m : Option HiddenResult
deriving DecidableEq, Repr

/-- `mtf_signal(df_raw, ...)`: resample to the execution and filter
timeframes, short-circuit when either has fewer than 2 bars, otherwise add
indicators, run the HTF filter, the MMC scorer and the divergence detector,
and combine.  The second component is the caller's raw series after the call:
every in-place operation of the source targets the freshly resampled frames
(threaded explicitly through `htf_filter_30m` / `check_3_confirm`), so the
raw series is only ever read.  When `use_hidden` is false the source builds a
two-key hidden dict; the embedding represents it with `none` index entries. -/
def mtf_signal (bars : List Bar) (tf_exec tf_filter : ℕ)
    (ema_spans : ℕ × ℕ) (macd_params : ℕ × ℕ × ℕ)
    (fibo_set : List ℕ) (fibo_tol : ℕ) (min_bars_htf : ℕ)
    (use_hidden : Bool) : SignalResult × List Bar :=
  let df15 := resample_ohlc bars tf_exec
  let df30 := resample_ohlc bars tf_filter
  if frameLen df15 < 2 ∨ frameLen df30 < 2 then
    ({ time := none,
       price_15m := (bars.getLast?).map Bar.Close,
       BUY_confirms_15m := none, SELL_confirms_15m := none,
       action := "HOLD/WAIT",
       reasons := ["Not enough bars for calculation"],
       htf_details := none, mmc_details_15m := none,
       hidden_div_15m := none }, bars)
  else
    let df15a := add_indicators df15 ema_spans macd_params
    let df30a := add_indicators df30 ema_spans macd_params
    let htfR := htf_filter_30m df30a ema_spans macd_params min_bars_htf
    let htf_up := htfR.1.1
    let htf_down := htfR.1.2.1
    let htf_det := htfR.1.2.2
    let mmcR := check_3_confirm df15a fibo_set fibo_tol .EMA200
    let c_buy := mmcR.1.1
    let c_sell := mmcR.1.2.1
    let mmc_det := mmcR.1.2.2
    let df15b := mmcR.2
    let hidden_det :=
      if use_hidden then hidden_divergence df15b false 2 2
      else ⟨false, false, none, none⟩
    let ar := decideAction htf_up htf_down c_buy c_sell use_hidden
      hidden_det.hidden_bull hidden_det.hidden_bear
    ({ time := df15b.idx.getLast?,
       price_15m := some (lastVal df15b.Close),
       BUY_confirms_15m := some c_buy, SELL_confirms_15m := some c_sell,
       action := ar.1, reasons := ar.2,
       htf_details := some htf_det, mmc_details_15m := some mmc_det,
       hidden_div_15m := some hidden_det }, bars)

/-! ### Helper lemmas -/

/-- Strict order on `Frac` is asymmetric (cross-multiplied integer order). -/
theorem Frac.lt_asymm {a b : Frac} (h1 : a < b) (h2 : b < a) : False :=
  absurd (Int.lt_trans h1 h2) (Int.lt_irrefl _)

/-- The two cross flags of one direction pair can never both be true: the
current-bar comparisons are strict and opposite. -/
theorem cross_pair_exclusive (x y u v : Frac) :
    (decide (x > y) && decide (u ≤ v)) = false ∨
    (decide (x < y) && decide (u ≥ v)) = false := by
  by_cases h : y < x
  · right
    have hnot : ¬(x < y) := fun h2 => Frac.lt_asymm h h2
    simp [hnot]
  · left
    simp [h]

/-- A score triple can reach 3 only when all three flags are true, so two
directionally exclusive triples cannot both sum to 3. -/
theorem triple_sum_exclusive (a b f a' b' : Bool)
    (hex : a = false ∨ a' = false)
    (h1 : (if a = true then 1 else 0) + (if b = true then 1 else 0)
      + (if f = true then 1 else 0) = 3)
    (h2 : (if a' = true then 1 else 0) + (if b' = true then 1 else 0)
      + (if f = true then 1 else 0) = 3) : False := by
  cases a <;> cases b <;> cases f <;> cases a' <;> cases b' <;> simp_all

/-! ### C2 — the HTF filter's two trend flags are never both true -/

/-- C2: for every input frame and every parameterization, `htf_filter_30m`
never reports `trend_up` and `trend_down` simultaneously: at least one of the
two returned flags is false (the EMA-alignment conditions are opposite strict
comparisons). -/
theorem htf_filter_trend_flags_exclusive (df : Frame) (spans : ℕ × ℕ)
    (mp : ℕ × ℕ × ℕ) (mb : ℕ) :
    (htf_filter_30m df spans mp mb).1.1 = false ∨
    (htf_filter_30m df spans mp mb).1.2.1 = false := by
  by_cases hlen : frameLen (add_indicators df spans mp) < mb
  · left
    simp [htf_filter_30m, hlen]
  · by_cases halign :
      lastVal ((add_indicators df spans mp).EMA200.getD []) <
        lastVal ((add_indicators df spans mp).EMA50.getD [])
    · right
      have hnot : ¬(lastVal ((add_indicators df spans mp).EMA50.getD []) <
          lastVal ((add_indicators df spans mp).EMA200.getD [])) :=
        fun h2 => Frac.lt_asymm halign h2
      simp [htf_filter_30m, hlen, hnot]
    · left
      simp [htf_filter_30m, hlen, halign]

/-! ### C3 — label of the maximum-confirmation BUY action -/

/-- C3 (amended): whenever the HTF filter reports `trend_up` and the
execution-timeframe buy score is 3, the combiner's action is the exact string
"BUY: ALL-IN (3/3, MTF aligned)". -/
theorem decideAction_buy3_label (htf_up htf_down : Bool) (c_buy c_sell : ℕ)
    (uh hb hbr : Bool) (h1 : htf_up = true) (h2 : c_buy = 3) :
    (decideAction htf_up htf_down c_buy c_sell uh hb hbr).1
      = "BUY: ALL-IN (3/3, MTF aligned)" := by
  subst h1 h2
  simp [decideAction]

/-- Witness: the amended C3 at the combiner inputs produced by the concrete
engineered series (trend_up, buy score 3). -/
theorem decideAction_buy3_label_witness :
    true = true ∧ 3 = 3 ∧
    (decideAction true false 3 0 true false false).1
      = "BUY: ALL-IN (3/3, MTF aligned)" :=
  ⟨rfl, rfl, decideAction_buy3_label true false 3 0 true false false rfl rfl⟩

/-! ### C7 — the raw input series is never mutated -/

/-- C7: one invocation of `mtf_signal` returns the caller's raw series
unchanged: every in-place mutation of the source is threaded through the
freshly resampled frames (`check_3_confirm` / `htf_filter_30m` return their
updated frame), and the raw series is only read. -/
theorem mtf_signal_preserves_raw_series (bars : List Bar) (tfe tff : ℕ)
    (spans : ℕ × ℕ) (mp : ℕ × ℕ × ℕ) (fs : List ℕ) (tol mb : ℕ) (uh : Bool) :
    (mtf_signal bars tfe tff spans mp fs tol mb uh).2 = bars := by
  rw [mtf_signal]
  split <;> rfl

/-! ### C1 — short-series short-circuit of `mtf_signal` -/

/-- A single flat bar: its resampled series has one bar at every rule, which
triggers the short-series short-circuit. -/
def bar1 : Bar := ⟨0, 100, 100, 100, 100, 1⟩

/-- C1 (amended): when the resampled execution or filter series has fewer
than 2 bars, `mtf_signal` returns action HOLD/WAIT with the reasons list
exactly `["Not enough bars for calculation"]`, the raw series' last close as
the price, and every other key of the result absent (`none`): no time, no
scores, and no HTF/MMC/divergence detail maps. -/
theorem mtf_short_series_early_return (bars : List Bar) (tfe tff : ℕ)
    (spans : ℕ × ℕ) (mp : ℕ × ℕ × ℕ) (fs : List ℕ) (tol mb : ℕ) (uh : Bool)
    (h : frameLen (resample_ohlc bars tfe) < 2 ∨
         frameLen (resample_ohlc bars tff) < 2) :
    (mtf_signal bars tfe tff spans mp fs tol mb uh).1 =
      { time := none,
        price_15m := (bars.getLast?).map Bar.Close,
        BUY_confirms_15m := none, SELL_confirms_15m := none,
        action := "HOLD/WAIT",
        reasons := ["Not enough bars for calculation"],
        htf_details := none, mmc_details_15m := none,
        hidden_div_15m := none } := by
  rw [mtf_signal, if_pos h]

/-- Witness for C1: a one-bar series resamples to one bar, and the
short-circuit record is returned. -/
theorem mtf_short_series_early_return_witness :
    (frameLen (resample_ohlc [bar1] 15) < 2 ∨
     frameLen (resample_ohlc [bar1] 30) < 2) ∧
    (mtf_signal [bar1] 15 30 (50, 200) (12, 26, 9) [3, 5, 8, 13, 21] 0 3 true).1 =
      { time := none,
        price_15m := some 100,
        BUY_confirms_15m := none, SELL_confirms_15m := none,
        action := "HOLD/WAIT",
        reasons := ["Not enough bars for calculation"],
        htf_details := none, mmc_details_15m := none,
        hidden_div_15m := none } :=
  ⟨Or.inl (by decide),
   mtf_short_series_early_return [bar1] 15 30 (50, 200) (12, 26, 9)
     [3, 5, 8, 13, 21] 0 3 true (Or.inl (by decide))⟩

/-- Counterexample to C1 as stated: on a qualifying short input the reason
string the source emits is "Not enough bars for calculation", not the claimed
"insufficient bars for calculation". -/
theorem mtf_short_series_reason_counterexample :
    frameLen (resample_ohlc [bar1] 15) < 2 ∧
    (mtf_signal [bar1] 15 30 (50, 200) (12, 26, 9) [3, 5, 8, 13, 21] 0 3 true).1.action
      = "HOLD/WAIT" ∧
    (mtf_signal [bar1] 15 30 (50, 200) (12, 26, 9) [3, 5, 8, 13, 21] 0 3 true).1.reasons
      ≠ ["insufficient bars for calculation"] := by
  refine ⟨by decide, by decide, by decide⟩

/-! ### C6 — idempotence of `add_indicators` -/

/-- All five derived columns are present in the frame. -/
def hasAllIndicatorColumns (df : Frame) : Prop :=
  df.EMA50.isSome = true ∧ df.EMA200.isSome = true ∧ df.DIF.isSome = true ∧
  df.DEA.isSome = true ∧ df.MACD_HIST.isSome = true

instance (df : Frame) : Decidable (hasAllIndicatorColumns df) :=
  inferInstanceAs (Decidable (_ ∧ _ ∧ _ ∧ _ ∧ _))

/-- A frame holding every derived column passes through `add_indicators`
untouched, whatever the parameters. -/
theorem add_indicators_of_hasAll (df : Frame) (p : ℕ × ℕ) (m : ℕ × ℕ × ℕ)
    (h : hasAllIndicatorColumns df) : add_indicators df p m = df := by
  obtain ⟨h1, h2, h3, h4, h5⟩ := h
  rcases df with ⟨i, o, hi, lo, c, v, e1, e2, d1, d2, d3⟩
  cases e1 <;> cases e2 <;> cases d1 <;> cases d2 <;> cases d3 <;>
    simp_all [add_indicators]

/-- One call to `add_indicators` leaves every derived column present. -/
theorem add_indicators_hasAll (df : Frame) (p : ℕ × ℕ) (m : ℕ × ℕ × ℕ) :
    hasAllIndicatorColumns (add_indicators df p m) := by
  rcases df with ⟨i, o, hi, lo, c, v, e1, e2, d1, d2, d3⟩
  cases e1 <;> cases e2 <;> cases d1 <;> cases d2 <;> cases d3 <;>
    simp [add_indicators, hasAllIndicatorColumns]

/-- C6: `add_indicators` is idempotent and ignores parameter changes on a
frame whose derived columns are already present: such a frame is returned
with every column identical, and in particular a second call — with the same
or different spans/MACD parameters — after a first call changes nothing. -/
theorem add_indicators_idempotent (df : Frame) (p1 p2 : ℕ × ℕ)
    (m1 m2 : ℕ × ℕ × ℕ) :
    (hasAllIndicatorColumns df → add_indicators df p2 m2 = df) ∧
    add_indicators (add_indicators df p1 m1) p2 m2 = add_indicators df p1 m1 :=
  ⟨fun h => add_indicators_of_hasAll df p2 m2 h,
   add_indicators_of_hasAll (add_indicators df p1 m1) p2 m2
     (add_indicators_hasAll df p1 m1)⟩

/-- A two-bar frame carrying all five derived columns. -/
def dfAllCols : Frame :=
  { idx := [0, 1], Open := [100, 101], High := [102, 103], Low := [99, 98],
    Close := [100, 101], Volume := [1, 1],
    EMA50 := some [100, 100], EMA200 := some [100, 100],
    DIF := some [0, 0], DEA := some [0, 0], MACD_HIST := some [0, 0] }

/-- Witness for C6: a concrete frame with all derived columns present is
returned unchanged by a further `add_indicators` call with different
parameters. -/
theorem add_indicators_idempotent_witness :
    hasAllIndicatorColumns dfAllCols ∧
    add_indicators dfAllCols (20, 60) (5, 10, 4) = dfAllCols :=
  ⟨by decide,
   (add_indicators_idempotent dfAllCols (50, 200) (20, 60) (12, 26, 9)
     (5, 10, 4)).1 (by decide)⟩

/-! ### C8 — `bars_since_last_pivot` characterization and monotonicity -/

/-- `maxPivot` returns `none` exactly on the empty list. -/
theorem maxPivot_eq_none {l : List ℕ} : maxPivot l = none ↔ l = [] := by
  cases l with
  | nil => simp [maxPivot]
  | cons p ps => cases h : maxPivot ps <;> simp [maxPivot, h]

/-- The value returned by `maxPivot` is a member of the list. -/
theorem maxPivot_mem : ∀ {l : List ℕ} {a : ℕ}, maxPivot l = some a → a ∈ l := by
  intro l
  induction l with
  | nil => intro a h; simp [maxPivot] at h
  | cons p ps ih =>
    intro a h
    cases hm : maxPivot ps with
    | none =>
      rw [maxPivot, hm] at h
      simp only [Option.some.injEq] at h
      simp [h]
    | some q =>
      rw [maxPivot, hm] at h
      simp only [Option.some.injEq] at h
      rcases max_choice p q with hc | hc
      · simp [← h, hc]
      · right
        rw [← h, hc]
        exact ih hm

/-- Every member of the list is bounded by the `maxPivot` value. -/
theorem le_maxPivot_of_mem :
    ∀ {l : List ℕ} {b a : ℕ}, b ∈ l → maxPivot l = some a → b ≤ a := by
  intro l
  induction l with
  | nil => intro b a hb; cases hb
  | cons p ps ih =>
    intro b a hb h
    cases hm : maxPivot ps with
    | none =>
      have : ps = [] := maxPivot_eq_none.mp hm
      subst this
      rw [maxPivot, hm] at h
      simp only [Option.some.injEq] at h
      rcases List.mem_cons.mp hb with hbp | hbp
      · omega
      · cases hbp
    | some q =>
      rw [maxPivot, hm] at h
      simp only [Option.some.injEq] at h
      rcases List.mem_cons.mp hb with hbp | hbp
      · subst hbp; omega
      · have := ih hbp hm
        omega

/-- C8: `bars_since_last_pivot` returns `none` when every pooled pivot lies
after `idx`; it returns `idx - p` when `p` is a pooled pivot that is maximal
among those `≤ idx`; and it is monotonically non-decreasing in the index over
any range that brings no new pivot into scope. -/
theorem bars_since_last_pivot_spec (idx : ℕ) (sh sl : List ℕ) :
    ((∀ p ∈ sh ++ sl, idx < p) → bars_since_last_pivot idx sh sl = none)
    ∧ (∀ p ∈ sh ++ sl, p ≤ idx →
        (∀ q ∈ sh ++ sl, q ≤ idx → q ≤ p) →
        bars_since_last_pivot idx sh sl = some (idx - p))
    ∧ (∀ idx2, idx ≤ idx2 →
        (∀ p ∈ sh ++ sl, p ≤ idx2 → p ≤ idx) →
        ∀ v, bars_since_last_pivot idx sh sl = some v →
        ∃ v2, bars_since_last_pivot idx2 sh sl = some v2 ∧ v ≤ v2) := by
  refine ⟨?_, ?_, ?_⟩
  · intro h
    have hf : (sh ++ sl).filter (fun p => decide (p ≤ idx)) = [] := by
      rw [List.filter_eq_nil_iff]
      intro a ha
      simpa using Nat.not_le.mpr (h a ha)
    simp [bars_since_last_pivot, hf, maxPivot]
  · intro p hp hpidx hmax
    have hpf : p ∈ (sh ++ sl).filter (fun q => decide (q ≤ idx)) :=
      List.mem_filter.mpr ⟨hp, by simpa using hpidx⟩
    cases hm : maxPivot ((sh ++ sl).filter (fun q => decide (q ≤ idx))) with
    | none =>
      rw [maxPivot_eq_none] at hm
      rw [hm] at hpf
      cases hpf
    | some m =>
      have hmf := maxPivot_mem hm
      have hmf2 := List.mem_filter.mp hmf
      have h1 : p ≤ m := le_maxPivot_of_mem hpf hm
      have h2 : m ≤ p := hmax m hmf2.1 (by simpa using hmf2.2)
      have hmp : m = p := Nat.le_antisymm h2 h1
      simp only [bars_since_last_pivot]
      rw [hm]
      simp [hmp]
  · intro idx2 hle hnew v hv
    have hfeq : (sh ++ sl).filter (fun p => decide (p ≤ idx2))
        = (sh ++ sl).filter (fun p => decide (p ≤ idx)) := by
      apply List.filter_congr
      intro x hx
      have : x ≤ idx2 ↔ x ≤ idx := ⟨fun h2 => hnew x hx h2, fun h2 => Nat.le_trans h2 hle⟩
      simp [this]
    simp only [bars_since_last_pivot] at hv ⊢
    rw [hfeq]
    rcases Option.map_eq_some'.mp hv with ⟨m, hm, hvm⟩
    refine ⟨idx2 - m, ?_, ?_⟩
    · rw [hm]
      rfl
    · have hmi : m ≤ idx := by
        have := List.mem_filter.mp (maxPivot_mem hm)
        simpa using this.2
      omega

/-- Witness for C8: concrete pivot lists `[2]`, `[5]` with indices 6 and 8;
no pivot lies in `(6, 8]`, and the bars-since count grows from 1 to 3. -/
theorem bars_since_last_pivot_spec_witness :
    6 ≤ 8 ∧ (∀ p ∈ [2] ++ [5], p ≤ 8 → p ≤ 6) ∧
    ∃ v2, bars_since_last_pivot 8 [2] [5] = some v2 ∧ 1 ≤ v2 :=
  ⟨by decide, by decide,
   (bars_since_last_pivot_spec 6 [2] [5]).2.2 8 (by decide) (by decide) 1 (by decide)⟩

/-! ### C5 — soundness of `find_swings` -/

/-- Too-short series: `find_swings` returns two empty lists. -/
theorem find_swings_short {high low : List Frac} {l r : ℕ}
    (h : high.length - r ≤ l) : find_swings high low l r = ([], []) := by
  simp [find_swings, h]

/-- Long-enough series: `find_swings` filters the index range by the
window-extremum tests. -/
theorem find_swings_long {high low : List Frac} {l r : ℕ}
    (h : ¬(high.length - r ≤ l)) :
    find_swings high low l r =
      ((List.range' l (high.length - r - l)).filter
        (fun i => decide (nth high i = listMax (windowOf high i l r))),
       (List.range' l (high.length - r - l)).filter
        (fun i => decide (nth low i = listMin (windowOf low i l r)))) := by
  simp [find_swings, h]

/-- C5: every swing-high index returned by `find_swings` lies in
`[left, n-right)` and equals the maximum of its window (swing-lows
symmetrically on the minimum); both returned lists are strictly ascending;
and a too-short series yields two empty lists instead of failing. -/
theorem find_swings_sound (high low : List Frac) (l r : ℕ)
    (hlen : high.length = low.length) :
    (∀ i ∈ (find_swings high low l r).1,
       l ≤ i ∧ i < high.length - r ∧ nth high i = listMax (windowOf high i l r))
    ∧ (∀ i ∈ (find_swings high low l r).2,
       l ≤ i ∧ i < high.length - r ∧ nth low i = listMin (windowOf low i l r))
    ∧ (find_swings high low l r).1.Pairwise (fun a b => a < b)
    ∧ (find_swings high low l r).2.Pairwise (fun a b => a < b)
    ∧ (high.length - r ≤ l → find_swings high low l r = ([], [])) := by
  by_cases hshort : high.length - r ≤ l
  · rw [find_swings_short hshort]
    simp
  · rw [find_swings_long hshort]
    have hrange : l + (high.length - r - l) = high.length - r := by omega
    refine ⟨?_, ?_, ?_, ?_, fun h => absurd h hshort⟩
    · intro i hi
      rcases List.mem_filter.mp hi with ⟨hr, hp⟩
      rcases List.mem_range'_1.mp hr with ⟨h1, h2⟩
      exact ⟨h1, by omega, of_decide_eq_true hp⟩
    · intro i hi
      rcases List.mem_filter.mp hi with ⟨hr, hp⟩
      rcases List.mem_range'_1.mp hr with ⟨h1, h2⟩
      exact ⟨h1, by omega, of_decide_eq_true hp⟩
    · exact List.Pairwise.sublist (List.filter_sublist _) (List.pairwise_lt_range' l _)
    · exact List.Pairwise.sublist (List.filter_sublist _) (List.pairwise_lt_range' l _)

/-- Witness for C5: a three-bar series with a middle spike/dip; the swing
lists are sound. -/
theorem find_swings_sound_witness :
    ([(1 : Frac), 5, 1] : List Frac).length = ([(1 : Frac), 0, 1] : List Frac).length ∧
    ((∀ i ∈ (find_swings [(1 : Frac), 5, 1] [(1 : Frac), 0, 1] 1 1).1,
       1 ≤ i ∧ i < ([(1 : Frac), 5, 1] : List Frac).length - 1 ∧
       nth [(1 : Frac), 5, 1] i = listMax (windowOf [(1 : Frac), 5, 1] i 1 1))
    ∧ (∀ i ∈ (find_swings [(1 : Frac), 5, 1] [(1 : Frac), 0, 1] 1 1).2,
       1 ≤ i ∧ i < ([(1 : Frac), 5, 1] : List Frac).length - 1 ∧
       nth [(1 : Frac), 0, 1] i = listMin (windowOf [(1 : Frac), 0, 1] i 1 1))
    ∧ (find_swings [(1 : Frac), 5, 1] [(1 : Frac), 0, 1] 1 1).1.Pairwise (fun a b => a < b)
    ∧ (find_swings [(1 : Frac), 5, 1] [(1 : Frac), 0, 1] 1 1).2.Pairwise (fun a b => a < b)
    ∧ (([(1 : Frac), 5, 1] : List Frac).length - 1 ≤ 1 →
        find_swings [(1 : Frac), 5, 1] [(1 : Frac), 0, 1] 1 1 = ([], []))) :=
  ⟨rfl, find_swings_sound [(1 : Frac), 5, 1] [(1 : Frac), 0, 1] 1 1 rfl⟩

/-! ### C9 — graceful degradation of `hidden_divergence` -/

/-- A list with fewer than two entries has no last-two pair. -/
theorem lastTwo_eq_none_of_short {xs : List ℕ} (h : xs.length < 2) :
    lastTwo xs = none := by
  unfold lastTwo
  cases hx : xs.reverse with
  | nil => rfl
  | cons b t =>
    cases t with
    | nil => rfl
    | cons a t2 =>
      exfalso
      have hl : xs.reverse.length = xs.length := xs.length_reverse
      rw [hx] at hl
      simp at hl
      omega

/-- C9: `hidden_divergence` degrades without failing: a series shorter than
`left + right + 1` returns the all-false/none record before any swing
computation, and whenever fewer than 2 swing-lows (resp. swing-highs) exist
the `hidden_bull` (resp. `hidden_bear`) flag is false. -/
theorem hidden_divergence_degrades (df : Frame) (uh : Bool) (l r : ℕ) :
    (frameLen df < l + r + 1 →
      hidden_divergence df uh l r = ⟨false, false, none, none⟩)
    ∧ ((find_swings df.High df.Low l r).2.length < 2 →
        (hidden_divergence df uh l r).hidden_bull = false)
    ∧ ((find_swings df.High df.Low l r).1.length < 2 →
        (hidden_divergence df uh l r).hidden_bear = false) := by
  refine ⟨?_, ?_, ?_⟩
  · intro h
    simp [hidden_divergence, h]
  · intro h
    by_cases hs : frameLen df < l + r + 1
    · simp [hidden_divergence, hs]
    · simp only [hidden_divergence, if_neg hs]
      rw [lastTwo_eq_none_of_short h]
  · intro h
    by_cases hs : frameLen df < l + r + 1
    · simp [hidden_divergence, hs]
    · simp only [hidden_divergence, if_neg hs]
      rw [lastTwo_eq_none_of_short h]

/-- A flat two-bar frame (too short for the default swing windows). -/
def dfTwoBars : Frame :=
  { idx := [0, 1], Open := [100, 100], High := [100, 100], Low := [100, 100],
    Close := [100, 100], Volume := [1, 1] }

/-- Witness for C9: on the two-bar frame no swing-lows exist and
`hidden_bull` is false (and the short-circuit record is returned). -/
theorem hidden_divergence_degrades_witness :
    frameLen dfTwoBars < 2 + 2 + 1 ∧
    (find_swings dfTwoBars.High dfTwoBars.Low 2 2).2.length < 2 ∧
    (hidden_divergence dfTwoBars false 2 2).hidden_bull = false :=
  ⟨by decide, by decide,
   (hidden_divergence_degrades dfTwoBars false 2 2).2.1 (by decide)⟩

/-! ### C4 — cross-confirmation inequalities and score counting -/

/-- Modelled from the spec: trend-cross buy means close strictly above the
slow EMA at the last bar and non-strictly at or below it at the previous
bar. -/
def specTrendCrossBuy (df2 : Frame) (src : EmaSource) : Prop :=
  nth df2.Close (frameLen df2 - 1) > nth ((df2.col src).getD []) (frameLen df2 - 1) ∧
  nth df2.Close (frameLen df2 - 2) ≤ nth ((df2.col src).getD []) (frameLen df2 - 2)

/-- Modelled from the spec: trend-cross sell with all inequalities
reversed. -/
def specTrendCrossSell (df2 : Frame) (src : EmaSource) : Prop :=
  nth df2.Close (frameLen df2 - 1) < nth ((df2.col src).getD []) (frameLen df2 - 1) ∧
  nth df2.Close (frameLen df2 - 2) ≥ nth ((df2.col src).getD []) (frameLen df2 - 2)

/-- Modelled from the spec: momentum-cross buy, DIF strictly above DEA at the
last bar and non-strictly at or below at the previous bar. -/
def specMomentumCrossBuy (df2 : Frame) : Prop :=
  nth (df2.DIF.getD []) (frameLen df2 - 1) > nth (df2.DEA.getD []) (frameLen df2 - 1) ∧
  nth (df2.DIF.getD []) (frameLen df2 - 2) ≤ nth (df2.DEA.getD []) (frameLen df2 - 2)

/-- Modelled from the spec: momentum-cross sell, reversed. -/
def specMomentumCrossSell (df2 : Frame) : Prop :=
  nth (df2.DIF.getD []) (frameLen df2 - 1) < nth (df2.DEA.getD []) (frameLen df2 - 1) ∧
  nth (df2.DIF.getD []) (frameLen df2 - 2) ≥ nth (df2.DEA.getD []) (frameLen df2 - 2)

/-- Count of true members of a flag list (the spec's score definition). -/
def countTrue (bs : List Bool) : ℕ := bs.count true

/-- The source's sum of indicator flags equals the spec's count of true
members. -/
theorem sum_ifs_eq_countTrue (a b c : Bool) :
    (if a = true then 1 else 0) + (if b = true then 1 else 0)
      + (if c = true then 1 else 0) = countTrue [a, b, c] := by
  cases a <;> cases b <;> cases c <;> rfl

/-- C4: on any frame with at least 2 bars, the detail dict of
`check_3_confirm` exists and its four cross flags agree with the spec's
formulas — strict inequality at the last bar, non-strict at the previous bar,
on the frame as augmented by the call — and each score is the count of true
members among its three confirmations, the same `fibo_ok` serving both
directions. -/
theorem check_3_confirm_matches_spec (df : Frame) (fs : List ℕ) (tol : ℕ)
    (src : EmaSource) (h : 2 ≤ frameLen df) :
    ∃ d : MMCDetails,
      (check_3_confirm df fs tol src).1.2.2 = some d
      ∧ (d.ms_buy = true ↔ specTrendCrossBuy (check_3_confirm df fs tol src).2 src)
      ∧ (d.ms_sell = true ↔ specTrendCrossSell (check_3_confirm df fs tol src).2 src)
      ∧ (d.macd_buy = true ↔ specMomentumCrossBuy (check_3_confirm df fs tol src).2)
      ∧ (d.macd_sell = true ↔ specMomentumCrossSell (check_3_confirm df fs tol src).2)
      ∧ (check_3_confirm df fs tol src).1.1
          = countTrue [d.ms_buy, d.macd_buy, d.fibo_ok]
      ∧ (check_3_confirm df fs tol src).1.2.1
          = countTrue [d.ms_sell, d.macd_sell, d.fibo_ok] := by
  have hn : ¬(frameLen df < 2) := by omega
  simp only [check_3_confirm, if_neg hn]
  refine ⟨_, rfl, ?_, ?_, ?_, ?_, ?_, ?_⟩
  · simp [specTrendCrossBuy, Bool.and_eq_true, decide_eq_true_eq]
  · simp [specTrendCrossSell, Bool.and_eq_true, decide_eq_true_eq]
  · simp [specMomentumCrossBuy, Bool.and_eq_true, decide_eq_true_eq]
  · simp [specMomentumCrossSell, Bool.and_eq_true, decide_eq_true_eq]
  · exact sum_ifs_eq_countTrue _ _ _
  · exact sum_ifs_eq_countTrue _ _ _

/-- Witness for C4: the two-bar flat frame satisfies the length hypothesis
and the full conclusion. -/
theorem check_3_confirm_matches_spec_witness :
    2 ≤ frameLen dfTwoBars ∧
    ∃ d : MMCDetails,
      (check_3_confirm dfTwoBars [3, 5, 8, 13, 21] 0 .EMA200).1.2.2 = some d
      ∧ (d.ms_buy = true ↔
          specTrendCrossBuy (check_3_confirm dfTwoBars [3, 5, 8, 13, 21] 0 .EMA200).2 .EMA200)
      ∧ (d.ms_sell = true ↔
          specTrendCrossSell (check_3_confirm dfTwoBars [3, 5, 8, 13, 21] 0 .EMA200).2 .EMA200)
      ∧ (d.macd_buy = true ↔
          specMomentumCrossBuy (check_3_confirm dfTwoBars [3, 5, 8, 13, 21] 0 .EMA200).2)
      ∧ (d.macd_sell = true ↔
          specMomentumCrossSell (check_3_confirm dfTwoBars [3, 5, 8, 13, 21] 0 .EMA200).2)
      ∧ (check_3_confirm dfTwoBars [3, 5, 8, 13, 21] 0 .EMA200).1.1
          = countTrue [d.ms_buy, d.macd_buy, d.fibo_ok]
      ∧ (check_3_confirm dfTwoBars [3, 5, 8, 13, 21] 0 .EMA200).1.2.1
          = countTrue [d.ms_sell, d.macd_sell, d.fibo_ok] :=
  ⟨by decide,
   check_3_confirm_matches_spec dfTwoBars [3, 5, 8, 13, 21] 0 .EMA200 (by decide)⟩

/-! ### C10 — directional exclusivity of the cross confirmations -/

/-- C10: the buy and sell cross flags of `check_3_confirm` are directionally
exclusive — the trend-cross pair is never both true, the momentum-cross pair
is never both true — and consequently the buy and sell scores are never both
3 in one evaluation. -/
theorem check_3_confirm_directional_exclusive (df : Frame) (fs : List ℕ)
    (tol : ℕ) (src : EmaSource) :
    (∀ d, (check_3_confirm df fs tol src).1.2.2 = some d →
      (d.ms_buy = false ∨ d.ms_sell = false) ∧
      (d.macd_buy = false ∨ d.macd_sell = false))
    ∧ ((check_3_confirm df fs tol src).1.1 = 3 →
        (check_3_confirm df fs tol src).1.2.1 = 3 → False) := by
  by_cases hn : frameLen df < 2
  · constructor
    · intro d hd
      simp [check_3_confirm, hn] at hd
    · intro h1 _
      simp [check_3_confirm, hn] at h1
  · simp only [check_3_confirm, if_neg hn]
    constructor
    · intro d hd
      simp only [Option.some.injEq] at hd
      subst hd
      exact ⟨cross_pair_exclusive _ _ _ _, cross_pair_exclusive _ _ _ _⟩
    · intro h1 h2
      exact triple_sum_exclusive _ _ _ _ _ (cross_pair_exclusive _ _ _ _) h1 h2

/-- Witness for C10: on the flat two-bar frame the detail dict is all-false
and the exclusivity conclusions hold for it. -/
theorem check_3_confirm_directional_exclusive_witness :
    (check_3_confirm dfTwoBars [3, 5, 8, 13, 21] 0 .EMA200).1.2.2
      = some ⟨false, false, false, false, false, none⟩ ∧
    (((⟨false, false, false, false, false, none⟩ : MMCDetails).ms_buy = false ∨
      (⟨false, false, false, false, false, none⟩ : MMCDetails).ms_sell = false) ∧
     ((⟨false, false, false, false, false, none⟩ : MMCDetails).macd_buy = false ∨
      (⟨false, false, false, false, false, none⟩ : MMCDetails).macd_sell = false)) :=
  ⟨by decide,
   (check_3_confirm_directional_exclusive dfTwoBars [3, 5, 8, 13, 21] 0 .EMA200).1
     ⟨false, false, false, false, false, none⟩ (by decide)⟩

/-! ### C3 counterexample — the engineered maximum-confirmation series -/

/-- A raw minute-grid bar for the engineered series: close as given, low
strictly increasing, high rising except for one spike. -/
def mkBar (k : ℕ) (c : Frac) (h : Frac) : Bar :=
  ⟨15 * k, c, h, Frac.ofNat k, c, 1⟩

/-- Closes of the engineered series: a flat base at 100, a measured rise to
101, a pull-back, and a final jump to 110.  On the execution timeframe the
last bar crosses above EMA200 and DIF crosses above DEA while the bar count
since the last pivot is 3; on the filter timeframe the last three closes sit
above EMA200 with EMA50 above EMA200 and positive momentum. -/
def c3closes : List Frac :=
  [100, 100, 100, 100, 100, 100, 101, 101, 101, 101,
   ⟨1003, 10⟩, ⟨1003, 10⟩, ⟨2501, 25⟩, 110]

/-- The engineered raw series: 14 bars on the 15-minute grid, with a single
swing-high pivot three bars before the end (the high spike at index 10). -/
def c3bars : List Bar :=
  (List.range 14).map (fun k =>
    mkBar k (c3closes.getD k 0) (if k = 10 then 2000 else 100 + Frac.ofNat k))

set_option maxRecDepth 100000 in
/-- Counterexample to C3 as stated: on the engineered series the HTF filter
reports trend_up and the buy score is 3, yet the action string is
"BUY: ALL-IN (3/3, MTF aligned)", not the claimed
"BUY: maximum confirmation (3/3)". -/
theorem mtf_max_confirmation_label_counterexample :
    (htf_filter_30m (add_indicators (resample_ohlc c3bars 30) (50, 200) (12, 26, 9))
        (50, 200) (12, 26, 9) 3).1.1 = true ∧
    (mtf_signal c3bars 15 30 (50, 200) (12, 26, 9) [3, 5, 8, 13, 21] 0 3 true).1.BUY_confirms_15m
      = some 3 ∧
    (mtf_signal c3bars 15 30 (50, 200) (12, 26, 9) [3, 5, 8, 13, 21] 0 3 true).1.action
      = "BUY: ALL-IN (3/3, MTF aligned)" ∧
    (mtf_signal c3bars 15 30 (50, 200) (12, 26, 9) [3, 5, 8, 13, 21] 0 3 true).1.action
      ≠ "BUY: maximum confirmation (3/3)" := by
  refine ⟨by decide, by decide, by decide, by decide⟩

end MTF
